import Mathlib

/-!
Verification model of the cedar-agent authorization service (src/main.rs).

The service is an HTTP front end around the external cedar-policy engine:
it loads a policy set and an optional schema at startup, decodes JSON
authorization requests, builds an evaluation context, invokes the engine
once, and assembles a JSON response.  The cedar-policy engine itself
(entity parsing, identifier parsing, request construction, evaluation) is
external and is modelled as an abstract record of functions; serde_json
is modelled by an executable JSON value type, parser and serializer below.
-/

/-- JSON values, modelling serde_json::Value.  Objects keep their fields as
an ordered association list (duplicates are representable, as in a parsed
token stream); numbers keep their raw source text, since no claim depends
on numeric semantics. -/
inductive Json where
  | null : Json
  | bool : Bool → Json
  | num : String → Json
  | str : String → Json
  | arr : List Json → Json
  | obj : List (String × Json) → Json

/-- First-match lookup of a field in a JSON object's field list. -/
def jlookup : List (String × Json) → String → Option Json
  | [], _ => none
  | (k, v) :: rest, key => if k = key then some v else jlookup rest key

/-- JSON whitespace. -/
def isWsChar (c : Char) : Bool := c = ' ' || c = '\n' || c = '\t' || c = '\r'

/-- Drop leading JSON whitespace. -/
def skipWs : List Char → List Char
  | [] => []
  | c :: rest => if isWsChar c then skipWs rest else c :: rest

/-- Single-character JSON escapes (the table of RFC 8259, minus \u). -/
def escCharJ (e : Char) : Option Char :=
  if e = '"' then some '"'
  else if e = '\\' then some '\\'
  else if e = '/' then some '/'
  else if e = 'b' then some '\x08'
  else if e = 'f' then some '\x0c'
  else if e = 'n' then some '\n'
  else if e = 'r' then some '\r'
  else if e = 't' then some '\t'
  else none

/-- Value of a hexadecimal digit. -/
def hexVal (c : Char) : Option Nat :=
  if '0' ≤ c ∧ c ≤ '9' then some (c.toNat - 48)
  else if 'a' ≤ c ∧ c ≤ 'f' then some (c.toNat - 87)
  else if 'A' ≤ c ∧ c ≤ 'F' then some (c.toNat - 55)
  else none

/-- Parse the body of a JSON string literal (after the opening quote) up to
its closing quote, decoding escapes; returns the decoded characters and
the rest of the input.  Raw control characters are rejected, as in
serde_json. -/
def parseStringBody : List Char → Option (List Char × List Char)
  | [] => none
  | c :: rest =>
    if c = '"' then some ([], rest)
    else if c = '\\' then
      match rest with
      | 'u' :: h1 :: h2 :: h3 :: h4 :: rest2 =>
        match hexVal h1, hexVal h2, hexVal h3, hexVal h4 with
        | some a, some b, some cc, some d =>
          (match parseStringBody rest2 with
           | some (s, r) => some (Char.ofNat (a * 4096 + b * 256 + cc * 16 + d) :: s, r)
           | none => none)
        | _, _, _, _ => none
      | e :: rest2 =>
        (match escCharJ e with
         | some d =>
           (match parseStringBody rest2 with
            | some (s, r) => some (d :: s, r)
            | none => none)
         | none => none)
      | [] => none
    else if c.toNat < 32 then none
    else
      match parseStringBody rest with
      | some (s, r) => some (c :: s, r)
      | none => none

/-- Longest prefix of decimal digits. -/
def spanDigits : List Char → List Char × List Char
  | [] => ([], [])
  | c :: rest =>
    if c.isDigit then
      match spanDigits rest with
      | (d, r) => (c :: d, r)
    else ([], c :: rest)

/-- Exponent digits of a JSON number (after an optional sign). -/
def parseExpDigits (pre : List Char) (s : List Char) : Option (List Char × List Char) :=
  match spanDigits s with
  | ([], _) => none
  | (ds, r) => some (pre ++ ds, r)

/-- Optional sign of a JSON number exponent. -/
def parseExpSign (pre : List Char) : List Char → Option (List Char × List Char)
  | '+' :: t => parseExpDigits (pre ++ ['+']) t
  | '-' :: t => parseExpDigits (pre ++ ['-']) t
  | t => parseExpDigits pre t

/-- Optional exponent part of a JSON number. -/
def parseExpPart (s : List Char) : Option (List Char × List Char) :=
  match s with
  | 'e' :: t => parseExpSign ['e'] t
  | 'E' :: t => parseExpSign ['E'] t
  | _ => some ([], s)

/-- Optional fraction part of a JSON number. -/
def parseFracPart : List Char → List Char × List Char
  | '.' :: t =>
    (match spanDigits t with
     | ([], _) => ([], '.' :: t)
     | (fs, r) => ('.' :: fs, r))
  | s => ([], s)

/-- Unsigned part of a JSON number: digits, optional fraction, optional
exponent.  (Leading-zero restrictions are not modelled.) -/
def parseNumMain (s : List Char) : Option (List Char × List Char) :=
  match spanDigits s with
  | ([], _) => none
  | (ds, rest) =>
    match parseFracPart rest with
    | (fr, rest2) =>
      match parseExpPart rest2 with
      | some (ex, rest3) => some (ds ++ fr ++ ex, rest3)
      | none => none

/-- A JSON number token, kept as raw text. -/
def parseNumber (s : List Char) : Option (Json × List Char) :=
  match s with
  | '-' :: t =>
    (match parseNumMain t with
     | some (raw, r) => some (Json.num (String.mk ('-' :: raw)), r)
     | none => none)
  | _ =>
    (match parseNumMain s with
     | some (raw, r) => some (Json.num (String.mk raw), r)
     | none => none)

mutual

/-- Fuel-indexed recursive-descent parser for one JSON value, modelling
serde_json's grammar; returns the value and the unconsumed input. -/
def parseValue : Nat → List Char → Option (Json × List Char)
  | 0, _ => none
  | n + 1, s =>
    match skipWs s with
    | [] => none
    | c :: rest =>
      if c = '"' then
        match parseStringBody rest with
        | some (content, r) => some (Json.str (String.mk content), r)
        | none => none
      else if c = '\x7b' then
        match skipWs rest with
        | '\x7d' :: r2 => some (Json.obj [], r2)
        | r2 =>
          match parseMembers n r2 with
          | some (ms, r3) => some (Json.obj ms, r3)
          | none => none
      else if c = '[' then
        match skipWs rest with
        | ']' :: r2 => some (Json.arr [], r2)
        | r2 =>
          match parseElems n r2 with
          | some (vs, r3) => some (Json.arr vs, r3)
          | none => none
      else if c = 't' then
        match rest with
        | 'r' :: 'u' :: 'e' :: r2 => some (Json.bool true, r2)
        | _ => none
      else if c = 'f' then
        match rest with
        | 'a' :: 'l' :: 's' :: 'e' :: r2 => some (Json.bool false, r2)
        | _ => none
      else if c = 'n' then
        match rest with
        | 'u' :: 'l' :: 'l' :: r2 => some (Json.null, r2)
        | _ => none
      else if c = '-' || c.isDigit then parseNumber (c :: rest)
      else none

/-- Members of a JSON object after its opening brace (nonempty case). -/
def parseMembers : Nat → List Char → Option (List (String × Json) × List Char)
  | 0, _ => none
  | n + 1, s =>
    match s with
    | '"' :: rest =>
      (match parseStringBody rest with
       | some (key, r1) =>
         (match skipWs r1 with
          | ':' :: r2 =>
            (match parseValue n r2 with
             | some (v, r3) =>
               (match skipWs r3 with
                | ',' :: r4 =>
                  (match parseMembers n (skipWs r4) with
                   | some (ms, r5) => some ((String.mk key, v) :: ms, r5)
                   | none => none)
                | '\x7d' :: r4 => some ([(String.mk key, v)], r4)
                | _ => none)
             | none => none)
          | _ => none)
       | none => none)
    | _ => none

/-- Elements of a JSON array after its opening bracket (nonempty case). -/
def parseElems : Nat → List Char → Option (List Json × List Char)
  | 0, _ => none
  | n + 1, s =>
    match parseValue n s with
    | some (v, r) =>
      (match skipWs r with
       | ',' :: r2 =>
         (match parseElems n (skipWs r2) with
          | some (vs, r3) => some (v :: vs, r3)
          | none => none)
       | ']' :: r2 => some ([v], r2)
       | _ => none)
    | none => none

end

/-- Parse a complete JSON document: one value with only whitespace after
it, as serde_json::from_slice requires (it rejects trailing characters). -/
def parseJsonChars (s : List Char) : Option Json :=
  match parseValue (s.length + 2) s with
  | some (j, rest) => if skipWs rest = [] then some j else none
  | none => none

/-- The inbound request body shape (struct AuthzRequest, src/main.rs:10-16):
three string identifiers and an arbitrary JSON `entities` document. -/
structure AuthzRequest where
  principal : String
  action : String
  resource : String
  entities : Json

/-- Diagnostics of an authorization decision (struct Diagnostics,
src/main.rs:24-28): ordered reason and error string lists. -/
structure Diagnostics where
  reason : List String
  errors : List String
deriving DecidableEq

/-- The outbound response shape (struct AuthzResponse, src/main.rs:18-22). -/
structure AuthzResponse where
  decision : String
  diagnostics : Diagnostics
deriving DecidableEq

/-- The health-check response shape (struct HealthResponse,
src/main.rs:30-33). -/
structure HealthResponse where
  status : String

/-- The field loop of serde's derived Deserialize for AuthzRequest: walk
the object's fields in order, filling each of the four declared fields at
most once (a repeated declared field is a `duplicate field` error, a
wrongly typed one an `invalid type` error, an undeclared one is skipped),
then require all four, reporting the first missing one in declaration
order. -/
def fromJsonFields : List (String × Json) → Option String → Option String →
    Option String → Option Json → Except String AuthzRequest
  | [], po, ao, ro, eo =>
    match po with
    | none => .error "missing field `principal`"
    | some p =>
      match ao with
      | none => .error "missing field `action`"
      | some a =>
        match ro with
        | none => .error "missing field `resource`"
        | some r =>
          match eo with
          | none => .error "missing field `entities`"
          | some ev => .ok { principal := p, action := a, resource := r, entities := ev }
  | (k, v) :: rest, po, ao, ro, eo =>
    if k = "principal" then
      match po with
      | some _ => .error "duplicate field `principal`"
      | none =>
        match v with
        | Json.str s => fromJsonFields rest (some s) ao ro eo
        | _ => .error "invalid type: expected a string for field `principal`"
    else if k = "action" then
      match ao with
      | some _ => .error "duplicate field `action`"
      | none =>
        match v with
        | Json.str s => fromJsonFields rest po (some s) ro eo
        | _ => .error "invalid type: expected a string for field `action`"
    else if k = "resource" then
      match ro with
      | some _ => .error "duplicate field `resource`"
      | none =>
        match v with
        | Json.str s => fromJsonFields rest po ao (some s) eo
        | _ => .error "invalid type: expected a string for field `resource`"
    else if k = "entities" then
      match eo with
      | some _ => .error "duplicate field `entities`"
      | none => fromJsonFields rest po ao ro (some v)
    else fromJsonFields rest po ao ro eo

/-- serde's derived Deserialize for AuthzRequest applied to a parsed JSON
value: the document must be an object, whose fields are folded by
`fromJsonFields`. -/
def fromJsonAuthzRequest : Json → Except String AuthzRequest
  | Json.obj fields => fromJsonFields fields none none none none
  | _ => .error "invalid type: expected struct AuthzRequest"

/-- serde_json::from_slice::<AuthzRequest> (src/main.rs:160), modelled as
JSON parsing followed by the derived field decoding.  (The request body is
modelled as text; a body that is not valid JSON is a decode error, never a
crash.) -/
def from_slice_AuthzRequest (body : String) : Except String AuthzRequest :=
  match parseJsonChars body.data with
  | none => .error "expected value"
  | some j => fromJsonAuthzRequest j

/-- Lower-case hexadecimal digit. -/
def hexDigitChar (n : Nat) : Char :=
  if n < 10 then Char.ofNat (48 + n) else Char.ofNat (87 + n)

/-- serde_json's escaping of one character inside a serialized JSON
string: quote, backslash and the short control escapes, \u00XX for the
remaining control characters, everything else verbatim. -/
def escapeChar (c : Char) : String :=
  if c = '"' then "\\\""
  else if c = '\\' then "\\\\"
  else if c = '\x08' then "\\b"
  else if c = '\t' then "\\t"
  else if c = '\n' then "\\n"
  else if c = '\x0c' then "\\f"
  else if c = '\r' then "\\r"
  else if c.toNat < 32 then
    "\\u00" ++ String.singleton (hexDigitChar (c.toNat / 16)) ++
      String.singleton (hexDigitChar (c.toNat % 16))
  else String.singleton c

/-- serde_json serialization of a string value. -/
def serializeString (s : String) : String :=
  "\"" ++ s.data.foldl (fun acc c => acc ++ escapeChar c) "" ++ "\""

/-- serde_json serialization of a vector of strings. -/
def serializeStringList (l : List String) : String :=
  "[" ++ String.intercalate "," (l.map serializeString) ++ "]"

/-- serde_json::to_string of an AuthzResponse (src/main.rs:163): fields in
declaration order, no extra whitespace. -/
def to_string_AuthzResponse (r : AuthzResponse) : String :=
  "\x7b\"decision\":" ++ serializeString r.decision ++
    ",\"diagnostics\":\x7b\"reason\":" ++ serializeStringList r.diagnostics.reason ++
    ",\"errors\":" ++ serializeStringList r.diagnostics.errors ++ "\x7d\x7d"

/-- serde_json::to_string of a HealthResponse (src/main.rs:141). -/
def to_string_HealthResponse (h : HealthResponse) : String :=
  "\x7b\"status\":" ++ serializeString h.status ++ "\x7d"

/-- The engine's decision enum (cedar_policy::Decision). -/
inductive Decision where
  | allow : Decision
  | deny : Decision
deriving DecidableEq

/-- What the engine's is_authorized returns, after the handler's
to_string projections: a decision, the contributing policy ids in
engine-reported order, and the evaluation error strings in
engine-reported order (src/main.rs:100-120). -/
structure EngineResponse where
  decision : Decision
  reason : List String
  errors : List String

/-- The always-empty request context built by the service
(Context::empty(), src/main.rs:87). -/
inductive RequestContext where
  | empty : RequestContext

/-- The external cedar-policy engine, abstracted: entity-graph parsing
(schema-aware via its Option argument), entity-identifier parsing,
request construction, and the authorization entry point.  EUid, EntitiesV,
SchemaV, PolicySetV and ReqV are the engine's opaque carrier types. -/
structure Engine (EUid EntitiesV SchemaV PolicySetV ReqV : Type) where
  entities_from_json_value : Json → Option SchemaV → Except String EntitiesV
  parse_euid : String → Except String EUid
  request_new : EUid → EUid → EUid → RequestContext → Option SchemaV → Except String ReqV
  is_authorized : ReqV → PolicySetV → EntitiesV → EngineResponse

/-- Rust's Result::map_err on the String-error results used throughout
src/main.rs. -/
def map_err (f : String → String) : Except String α → Except String α
  | .ok a => .ok a
  | .error e => .error (f e)

/-- The process-wide service state (struct CedarService, src/main.rs:35-38):
the parsed policy set and the optional parsed schema. -/
structure CedarService (SchemaV PolicySetV : Type) where
  policy_set : PolicySetV
  schema : Option SchemaV

/-- CedarService::new (src/main.rs:41-63), with the file reads and the
library parsers supplied as inputs: read the policy source (read failure
is fatal), parse it (parse failure is fatal); then, if the schema source
is readable, parse it (parse failure is fatal), otherwise proceed with no
schema. -/
def CedarService.new {SchemaV PolicySetV : Type}
    (policyRead schemaRead : Except String String)
    (parsePolicySet : String → Except String PolicySetV)
    (schemaFromJsonStr : String → Except String SchemaV) :
    Except String (CedarService SchemaV PolicySetV) :=
  match map_err (fun e => "Failed to read policy file: " ++ e) policyRead with
  | .error e => .error e
  | .ok policy_src =>
    match map_err (fun e => "Failed to parse policies: " ++ e) (parsePolicySet policy_src) with
    | .error e => .error e
    | .ok policy_set =>
      match schemaRead with
      | .ok schema_src =>
        (match map_err (fun e => "Failed to parse schema: " ++ e) (schemaFromJsonStr schema_src) with
         | .error e => .error e
         | .ok sc => .ok { policy_set := policy_set, schema := some sc })
      | .error _ => .ok { policy_set := policy_set, schema := none }

/-- The response-assembly tail of CedarService::authorize
(src/main.rs:103-128): Allow/Deny mapped to the string literals, the
diagnostics lists copied in order. -/
def assemble (d : Decision) (reason errors : List String) : AuthzResponse :=
  { decision := match d with | Decision.allow => "Allow" | Decision.deny => "Deny",
    diagnostics := { reason := reason, errors := errors } }

/-- CedarService::authorize (src/main.rs:65-129): parse the entity graph
(schema-aware branch on the stored schema), then principal, action and
resource in that order, build the request (same schema branch), invoke
the engine once, and assemble the response.  Each failure short-circuits
with its own message prefix. -/
def CedarService.authorize {EUid EntitiesV SchemaV PolicySetV ReqV : Type}
    (eng : Engine EUid EntitiesV SchemaV PolicySetV ReqV)
    (svc : CedarService SchemaV PolicySetV) (req : AuthzRequest) :
    Except String AuthzResponse :=
  match (match svc.schema with
         | some schema =>
           map_err (fun e => "Failed to parse entities: " ++ e)
             (eng.entities_from_json_value req.entities (some schema))
         | none =>
           map_err (fun e => "Failed to parse entities: " ++ e)
             (eng.entities_from_json_value req.entities none)) with
  | .error e => .error e
  | .ok entities =>
    match map_err (fun e => "Failed to parse principal: " ++ e) (eng.parse_euid req.principal) with
    | .error e => .error e
    | .ok principal =>
      match map_err (fun e => "Failed to parse action: " ++ e) (eng.parse_euid req.action) with
      | .error e => .error e
      | .ok action =>
        match map_err (fun e => "Failed to parse resource: " ++ e) (eng.parse_euid req.resource) with
        | .error e => .error e
        | .ok resource =>
          match (match svc.schema with
                 | some schema =>
                   map_err (fun e => "Failed to create request: " ++ e)
                     (eng.request_new principal action resource RequestContext.empty (some schema))
                 | none =>
                   map_err (fun e => "Failed to create request: " ++ e)
                     (eng.request_new principal action resource RequestContext.empty none)) with
          | .error e => .error e
          | .ok cedar_request =>
            match eng.is_authorized cedar_request svc.policy_set entities with
            | resp => .ok (assemble resp.decision resp.reason resp.errors)

/-- HTTP methods relevant to the dispatcher (hyper::Method). -/
inductive Method where
  | get : Method
  | post : Method
  | put : Method
  | delete : Method
  | patch : Method
  | head : Method
  | options : Method
deriving DecidableEq

/-- An HTTP response as the handler builds it: status code, the optional
content-type header it sets, and the body text. -/
structure HttpResponse where
  status : Nat
  content_type : Option String
  body : String
deriving DecidableEq

/-- The error envelope written by format!(r#"..."#) in the handler
(src/main.rs:155, 174, 183): the message is spliced into the template
verbatim, with no JSON escaping. -/
def mkErrorBody (m : String) : String :=
  "\x7b\"error\":\"" ++ m ++ "\"\x7d"

/-- The POST /authorize arm of handle_request (src/main.rs:148-187): read
the body (read failure → 400), decode it (decode failure → 400),
authorize (failure → 500, success → 200 with the serialized response).
The body-read outcome is an input, since transport I/O is external. -/
def authorize_route {EUid EntitiesV SchemaV PolicySetV ReqV : Type}
    (eng : Engine EUid EntitiesV SchemaV PolicySetV ReqV)
    (svc : CedarService SchemaV PolicySetV)
    (bodyRead : Except String String) : HttpResponse :=
  match bodyRead with
  | .error e =>
    { status := 400, content_type := none,
      body := mkErrorBody ("Failed to read body: " ++ e) }
  | .ok bodyStr =>
    match from_slice_AuthzRequest bodyStr with
    | .ok authz_req =>
      (match CedarService.authorize eng svc authz_req with
       | .ok authz_response =>
         { status := 200, content_type := some "application/json",
           body := to_string_AuthzResponse authz_response }
       | .error e =>
         { status := 500, content_type := some "application/json",
           body := mkErrorBody e })
    | .error e =>
      { status := 400, content_type := some "application/json",
        body := mkErrorBody ("Invalid request: " ++ e) }

/-- handle_request (src/main.rs:132-194): GET /health returns the fixed
healthy payload; POST /authorize runs the authorize pipeline; every other
method/path pair → 404 with plain-text body. -/
def handle_request {EUid EntitiesV SchemaV PolicySetV ReqV : Type}
    (eng : Engine EUid EntitiesV SchemaV PolicySetV ReqV)
    (svc : CedarService SchemaV PolicySetV)
    (method : Method) (path : String) (bodyRead : Except String String) : HttpResponse :=
  if method = Method.get ∧ path = "/health" then
    { status := 200, content_type := some "application/json",
      body := to_string_HealthResponse { status := "healthy" } }
  else if method = Method.post ∧ path = "/authorize" then
    authorize_route eng svc bodyRead
  else { status := 404, content_type := none, body := "Not found" }

/-- Read a JSON value as a string. -/
def asString : Json → Option String
  | Json.str s => some s
  | _ => none

/-- Read a JSON value as an array of strings. -/
def asStringList : Json → Option (List String)
  | Json.arr items => items.mapM asString
  | _ => none

/-- Spec-side reading of a serialized AuthzResponse back into the logical
structure, realizing the round-trip direction of the spec ("deserializes
back to the same logical structure"); the repository derives only
Serialize for AuthzResponse, so this decoder follows the wire shape of
section 6 of the spec. -/
def decode_AuthzResponse : Json → Option AuthzResponse
  | Json.obj fields =>
    (match jlookup fields "decision", jlookup fields "diagnostics" with
     | some (Json.str d), some (Json.obj dfields) =>
       (match jlookup dfields "reason", jlookup dfields "errors" with
        | some rj, some ej =>
          (match asStringList rj, asStringList ej with
           | some rs, some es =>
             some { decision := d, diagnostics := { reason := rs, errors := es } }
           | _, _ => none)
        | _, _ => none)
     | _, _ => none)
  | _ => none

/-- A character that needs no JSON escaping inside a string literal. -/
def benignChar (c : Char) : Prop :=
  ¬c = '"' ∧ ¬c = '\\' ∧ ¬c.toNat < 32

instance : DecidablePred benignChar := fun c => by
  unfold benignChar; infer_instance

/-- A string whose characters all need no JSON escaping. -/
def benignStr (s : String) : Prop := ∀ c ∈ s.data, benignChar c

instance : DecidablePred benignStr := fun s => by
  unfold benignStr; infer_instance

/-- A parsed request document that misses at least one of the four
required fields whenever it is an object at all (a non-object document
has no fields, so it misses all of them vacuously). -/
def MissingReq (j : Json) : Prop :=
  ∀ fields, j = Json.obj fields →
    jlookup fields "principal" = none ∨ jlookup fields "action" = none ∨
    jlookup fields "resource" = none ∨ jlookup fields "entities" = none

/-- A concrete engine over unit carriers: the entity graph and request
construction succeed, identifier parsing fails with a message that itself
contains double quotes (as cedar identifier errors do, entity identifiers
being written Type::"name"), and evaluation denies. -/
def egEngine : Engine Unit Unit Unit Unit Unit :=
  { entities_from_json_value := fun _ _ => .ok (),
    parse_euid := fun _ => .error "expected an identifier like User::\"alice\"",
    request_new := fun _ _ _ _ _ => .ok (),
    is_authorized := fun _ _ _ => { decision := Decision.deny, reason := [], errors := [] } }

/-- A concrete engine over unit carriers for which every stage succeeds;
evaluation allows with reason ["p1"]. -/
def okEngine : Engine Unit Unit Unit Unit Unit :=
  { entities_from_json_value := fun _ _ => .ok (),
    parse_euid := fun _ => .ok (),
    request_new := fun _ _ _ _ _ => .ok (),
    is_authorized := fun _ _ _ => { decision := Decision.allow, reason := ["p1"], errors := [] } }

/-- A concrete schema-less service state over unit carriers. -/
def egService : CedarService Unit Unit :=
  { policy_set := (), schema := none }

/-- A well-formed request body: all four fields present and well typed. -/
def egBody : String :=
  "\x7b\"principal\":\"p\",\"action\":\"a\",\"resource\":\"r\",\"entities\":null\x7d"

theorem parseStringBody_benign (l : List Char) (r : List Char) (hb : ∀ c ∈ l, benignChar c) :
    parseStringBody (l ++ '"' :: r) = some (l, r) := by
  induction l with
  | nil => rw [List.nil_append, parseStringBody.eq_def]; simp
  | cons c cs ih =>
    obtain ⟨h1, h2, h3⟩ := hb c (List.mem_cons_self c cs)
    have ih' := ih (fun x hx => hb x (List.mem_cons_of_mem c hx))
    rw [List.cons_append, parseStringBody.eq_def]
    simp only
    rw [if_neg h1, if_neg h2, if_neg h3, ih']

theorem parseValue_strTail (n : Nat) (m : String) (hb : benignStr m) :
    parseValue (n + 1) ('"' :: (m.data ++ ['"', '\x7d'])) = some (Json.str m, ['\x7d']) := by
  show (match parseStringBody (m.data ++ ['"', '\x7d']) with
        | some (content, r) => some (Json.str (String.mk content), r)
        | none => none) = some (Json.str m, ['\x7d'])
  rw [parseStringBody_benign m.data ['\x7d'] hb]

theorem parseMembers_errTail (n : Nat) (m : String) (hb : benignStr m) :
    parseMembers (n + 2)
      ('"' :: 'e' :: 'r' :: 'r' :: 'o' :: 'r' :: '"' :: ':' :: '"' :: (m.data ++ ['"', '\x7d']))
      = some ([("error", Json.str m)], []) := by
  show (match parseValue (n + 1) ('"' :: (m.data ++ ['"', '\x7d'])) with
        | some (v, r3) =>
          (match skipWs r3 with
           | ',' :: r4 =>
             (match parseMembers (n + 1) (skipWs r4) with
              | some (ms, r5) => some (("error", v) :: ms, r5)
              | none => none)
           | '\x7d' :: r4 => some ([("error", v)], r4)
           | _ => none)
        | none => none) = some ([("error", Json.str m)], [])
  rw [parseValue_strTail n m hb]
  rfl

theorem parseValue_errBody (n : Nat) (m : String) (hb : benignStr m) :
    parseValue (n + 3)
      ('\x7b' :: '"' :: 'e' :: 'r' :: 'r' :: 'o' :: 'r' :: '"' :: ':' :: '"' :: (m.data ++ ['"', '\x7d']))
      = some (Json.obj [("error", Json.str m)], []) := by
  show (match parseMembers (n + 2)
          ('"' :: 'e' :: 'r' :: 'r' :: 'o' :: 'r' :: '"' :: ':' :: '"' :: (m.data ++ ['"', '\x7d'])) with
        | some (ms, r3) => some (Json.obj ms, r3)
        | none => none) = some (Json.obj [("error", Json.str m)], [])
  rw [parseMembers_errTail n m hb]

theorem parseJsonChars_mkErrorBody (m : String) (hb : benignStr m) :
    parseJsonChars (mkErrorBody m).data = some (Json.obj [("error", Json.str m)]) := by
  have hdata : (mkErrorBody m).data
      = '\x7b' :: '"' :: 'e' :: 'r' :: 'r' :: 'o' :: 'r' :: '"' :: ':' :: '"' :: (m.data ++ ['"', '\x7d']) := by
    show ("\x7b\"error\":\"" ++ m ++ "\"\x7d").data = _
    rw [String.data_append, String.data_append, List.append_assoc]
    rfl
  simp only [parseJsonChars]
  rw [hdata]
  have hlen : ('\x7b' :: '"' :: 'e' :: 'r' :: 'r' :: 'o' :: 'r' :: '"' :: ':' :: '"' ::
      (m.data ++ ['"', '\x7d'])).length + 2 = m.data.length + 11 + 3 := by
    simp [List.length_append]
  rw [hlen, parseValue_errBody (m.data.length + 11) m hb]
  rfl

theorem string_append_ne (p q a b : String) (i : Nat) (h1 : i < p.data.length)
    (h2 : i < q.data.length) (h3 : p.data[i]? ≠ q.data[i]?) : p ++ a ≠ q ++ b := by
  intro h
  have hd : p.data ++ a.data = q.data ++ b.data := by
    have h' := congrArg String.data h
    rwa [String.data_append, String.data_append] at h'
  have h4 := congrArg (fun l => l[i]?) hd
  simp only at h4
  rw [List.getElem?_append, List.getElem?_append, if_pos h1, if_pos h2] at h4
  exact h3 h4

theorem jlookup_cons_eq (k : String) (v : Json) (rest : List (String × Json)) :
    jlookup ((k, v) :: rest) k = some v := by
  simp [jlookup]

theorem jlookup_cons_ne (k key : String) (v : Json) (rest : List (String × Json))
    (h : ¬k = key) : jlookup ((k, v) :: rest) key = jlookup rest key := by
  simp [jlookup, h]

theorem jlookup_eq_none_of_not_mem (fields : List (String × Json)) (key : String)
    (h : key ∉ fields.map Prod.fst) : jlookup fields key = none := by
  induction fields with
  | nil => rfl
  | cons kv rest ih =>
    obtain ⟨k, v⟩ := kv
    simp only [List.map_cons, List.mem_cons] at h
    push_neg at h
    rw [jlookup_cons_ne k key v rest (fun hk => h.1 hk.symm)]
    exact ih h.2

theorem fromJsonFields_ok_present (fields : List (String × Json)) :
    ∀ (po ao ro : Option String) (eo : Option Json) (req : AuthzRequest),
    fromJsonFields fields po ao ro eo = .ok req →
    (po ≠ none ∨ jlookup fields "principal" ≠ none) ∧
    (ao ≠ none ∨ jlookup fields "action" ≠ none) ∧
    (ro ≠ none ∨ jlookup fields "resource" ≠ none) ∧
    (eo ≠ none ∨ jlookup fields "entities" ≠ none) := by
  induction fields with
  | nil =>
    intro po ao ro eo req h
    rcases po with _ | p
    · simp [fromJsonFields] at h
    rcases ao with _ | a
    · simp [fromJsonFields] at h
    rcases ro with _ | r
    · simp [fromJsonFields] at h
    rcases eo with _ | ev
    · simp [fromJsonFields] at h
    refine ⟨Or.inl ?_, Or.inl ?_, Or.inl ?_, Or.inl ?_⟩ <;> simp
  | cons kv rest ih =>
    intro po ao ro eo req h
    obtain ⟨k, v⟩ := kv
    have transfer : ∀ {β : Type} (x : Option β) (key : String), ¬k = key →
        (x ≠ none ∨ jlookup rest key ≠ none) →
        (x ≠ none ∨ jlookup ((k, v) :: rest) key ≠ none) := by
      intro β x key hne hd
      refine hd.imp id (fun hl => ?_)
      rw [jlookup_cons_ne k key v rest hne]
      exact hl
    have present : jlookup ((k, v) :: rest) k ≠ none := by
      rw [jlookup_cons_eq]
      simp
    by_cases hk1 : k = "principal"
    · subst hk1
      rcases po with _ | p
      · rcases v with _ | b | nm | s | items | flds <;> simp [fromJsonFields] at h
        have hrec := ih (some s) ao ro eo req h
        exact ⟨Or.inr present, transfer ao "action" (by decide) hrec.2.1,
          transfer ro "resource" (by decide) hrec.2.2.1,
          transfer eo "entities" (by decide) hrec.2.2.2⟩
      · simp [fromJsonFields] at h
    · by_cases hk2 : k = "action"
      · subst hk2
        rcases ao with _ | a
        · rcases v with _ | b | nm | s | items | flds <;> simp [fromJsonFields, hk1] at h
          have hrec := ih po (some s) ro eo req h
          exact ⟨transfer po "principal" (by decide) hrec.1, Or.inr present,
            transfer ro "resource" (by decide) hrec.2.2.1,
            transfer eo "entities" (by decide) hrec.2.2.2⟩
        · simp [fromJsonFields, hk1] at h
      · by_cases hk3 : k = "resource"
        · subst hk3
          rcases ro with _ | r
          · rcases v with _ | b | nm | s | items | flds <;> simp [fromJsonFields, hk1, hk2] at h
            have hrec := ih po ao (some s) eo req h
            exact ⟨transfer po "principal" (by decide) hrec.1,
              transfer ao "action" (by decide) hrec.2.1, Or.inr present,
              transfer eo "entities" (by decide) hrec.2.2.2⟩
          · simp [fromJsonFields, hk1, hk2] at h
        · by_cases hk4 : k = "entities"
          · subst hk4
            rcases eo with _ | ev
            · simp [fromJsonFields, hk1, hk2, hk3] at h
              have hrec := ih po ao ro (some v) req h
              exact ⟨transfer po "principal" (by decide) hrec.1,
                transfer ao "action" (by decide) hrec.2.1,
                transfer ro "resource" (by decide) hrec.2.2.1, Or.inr present⟩
            · simp [fromJsonFields, hk1, hk2, hk3] at h
          · simp [fromJsonFields, hk1, hk2, hk3, hk4] at h
            have hrec := ih po ao ro eo req h
            exact ⟨transfer po "principal" hk1 hrec.1,
              transfer ao "action" hk2 hrec.2.1,
              transfer ro "resource" hk3 hrec.2.2.1,
              transfer eo "entities" hk4 hrec.2.2.2⟩

theorem fromJsonFields_complete (fields : List (String × Json)) :
    ∀ (po ao ro : Option String) (eo : Option Json) (p a r : String) (ev : Json),
    (fields.map Prod.fst).Nodup →
    ((po = some p ∧ jlookup fields "principal" = none) ∨
      (po = none ∧ jlookup fields "principal" = some (Json.str p))) →
    ((ao = some a ∧ jlookup fields "action" = none) ∨
      (ao = none ∧ jlookup fields "action" = some (Json.str a))) →
    ((ro = some r ∧ jlookup fields "resource" = none) ∨
      (ro = none ∧ jlookup fields "resource" = some (Json.str r))) →
    ((eo = some ev ∧ jlookup fields "entities" = none) ∨
      (eo = none ∧ jlookup fields "entities" = some ev)) →
    fromJsonFields fields po ao ro eo =
      .ok { principal := p, action := a, resource := r, entities := ev } := by
  induction fields with
  | nil =>
    intro po ao ro eo p a r ev _ hp ha hr he
    have hp' : po = some p := by
      rcases hp with ⟨h1, _⟩ | ⟨_, h2⟩
      · exact h1
      · exact absurd h2 (by simp [jlookup])
    have ha' : ao = some a := by
      rcases ha with ⟨h1, _⟩ | ⟨_, h2⟩
      · exact h1
      · exact absurd h2 (by simp [jlookup])
    have hr' : ro = some r := by
      rcases hr with ⟨h1, _⟩ | ⟨_, h2⟩
      · exact h1
      · exact absurd h2 (by simp [jlookup])
    have he' : eo = some ev := by
      rcases he with ⟨h1, _⟩ | ⟨_, h2⟩
      · exact h1
      · exact absurd h2 (by simp [jlookup])
    subst hp' ha' hr' he'
    rfl
  | cons kv rest ih =>
    intro po ao ro eo p a r ev hnd hp ha hr he
    obtain ⟨k, v⟩ := kv
    rw [List.map_cons, List.nodup_cons] at hnd
    obtain ⟨hkmem, hnd'⟩ := hnd
    have hnone : jlookup rest k = none :=
      jlookup_eq_none_of_not_mem rest k hkmem
    have transfer : ∀ {β : Type} (x : Option β) (w0 : β) (w : Json) (key : String), ¬k = key →
        ((x = some w0 ∧ jlookup ((k, v) :: rest) key = none) ∨
          (x = none ∧ jlookup ((k, v) :: rest) key = some w)) →
        ((x = some w0 ∧ jlookup rest key = none) ∨
          (x = none ∧ jlookup rest key = some w)) := by
      intro β x w0 w key hne hd
      rwa [jlookup_cons_ne k key v rest hne] at hd
    by_cases hk1 : k = "principal"
    · subst hk1
      obtain ⟨hv1, hv2⟩ : v = Json.str p ∧ po = none := by
        rcases hp with ⟨_, hlk⟩ | ⟨hpo, hlk⟩
        · rw [jlookup_cons_eq] at hlk
          exact absurd hlk (by simp)
        · rw [jlookup_cons_eq] at hlk
          exact ⟨(Option.some.inj hlk), hpo⟩
      subst hv1
      subst hv2
      have hstep : fromJsonFields (("principal", Json.str p) :: rest) none ao ro eo
          = fromJsonFields rest (some p) ao ro eo := by
        simp [fromJsonFields]
      rw [hstep]
      exact ih (some p) ao ro eo p a r ev hnd' (Or.inl ⟨rfl, hnone⟩)
        (transfer ao a (Json.str a) "action" (by decide) ha)
        (transfer ro r (Json.str r) "resource" (by decide) hr)
        (transfer eo ev ev "entities" (by decide) he)
    · by_cases hk2 : k = "action"
      · subst hk2
        obtain ⟨hv1, hv2⟩ : v = Json.str a ∧ ao = none := by
          rcases ha with ⟨_, hlk⟩ | ⟨hao, hlk⟩
          · rw [jlookup_cons_eq] at hlk
            exact absurd hlk (by simp)
          · rw [jlookup_cons_eq] at hlk
            exact ⟨(Option.some.inj hlk), hao⟩
        subst hv1
        subst hv2
        have hstep : fromJsonFields (("action", Json.str a) :: rest) po none ro eo
            = fromJsonFields rest po (some a) ro eo := by
          simp [fromJsonFields, hk1]
        rw [hstep]
        exact ih po (some a) ro eo p a r ev hnd'
          (transfer po p (Json.str p) "principal" (by decide) hp)
          (Or.inl ⟨rfl, hnone⟩)
          (transfer ro r (Json.str r) "resource" (by decide) hr)
          (transfer eo ev ev "entities" (by decide) he)
      · by_cases hk3 : k = "resource"
        · subst hk3
          obtain ⟨hv1, hv2⟩ : v = Json.str r ∧ ro = none := by
            rcases hr with ⟨_, hlk⟩ | ⟨hro, hlk⟩
            · rw [jlookup_cons_eq] at hlk
              exact absurd hlk (by simp)
            · rw [jlookup_cons_eq] at hlk
              exact ⟨(Option.some.inj hlk), hro⟩
          subst hv1
          subst hv2
          have hstep : fromJsonFields (("resource", Json.str r) :: rest) po ao none eo
              = fromJsonFields rest po ao (some r) eo := by
            simp [fromJsonFields, hk1, hk2]
          rw [hstep]
          exact ih po ao (some r) eo p a r ev hnd'
            (transfer po p (Json.str p) "principal" (by decide) hp)
            (transfer ao a (Json.str a) "action" (by decide) ha)
            (Or.inl ⟨rfl, hnone⟩)
            (transfer eo ev ev "entities" (by decide) he)
        · by_cases hk4 : k = "entities"
          · subst hk4
            obtain ⟨hv1, hv2⟩ : v = ev ∧ eo = none := by
              rcases he with ⟨_, hlk⟩ | ⟨heo, hlk⟩
              · rw [jlookup_cons_eq] at hlk
                exact absurd hlk (by simp)
              · rw [jlookup_cons_eq] at hlk
                exact ⟨(Option.some.inj hlk), heo⟩
            subst hv1
            subst hv2
            have hstep : fromJsonFields (("entities", v) :: rest) po ao ro none
                = fromJsonFields rest po ao ro (some v) := by
              simp [fromJsonFields, hk1, hk2, hk3]
            rw [hstep]
            exact ih po ao ro (some v) p a r v hnd'
              (transfer po p (Json.str p) "principal" (by decide) hp)
              (transfer ao a (Json.str a) "action" (by decide) ha)
              (transfer ro r (Json.str r) "resource" (by decide) hr)
              (Or.inl ⟨rfl, hnone⟩)
          · have hstep : fromJsonFields ((k, v) :: rest) po ao ro eo
                = fromJsonFields rest po ao ro eo := by
              simp [fromJsonFields, hk1, hk2, hk3, hk4]
            rw [hstep]
            exact ih po ao ro eo p a r ev hnd'
              (transfer po p (Json.str p) "principal" hk1 hp)
              (transfer ao a (Json.str a) "action" hk2 ha)
              (transfer ro r (Json.str r) "resource" hk3 hr)
              (transfer eo ev ev "entities" hk4 he)

theorem string_append_ne_empty (pre m : String) (h17 : pre.length ≠ 0) : ¬pre ++ m = "" := by
  intro h
  have h2 := congrArg String.length h
  rw [String.length_append] at h2
  have h4 : "".length = 0 := rfl
  omega

/-- Claim C7: every GET /health request gets status 200 with body
\x7b"status":"healthy"\x7d, whatever the loaded policy set and schema state
(the service state is universally quantified, covering an empty policy
set), and whatever the body-read outcome. -/
theorem claim7_health_always_200 {EUid EntitiesV SchemaV PolicySetV ReqV : Type}
    (eng : Engine EUid EntitiesV SchemaV PolicySetV ReqV)
    (svc : CedarService SchemaV PolicySetV) (bodyRead : Except String String) :
    handle_request eng svc Method.get "/health" bodyRead =
      { status := 200, content_type := some "application/json",
        body := "\x7b\"status\":\"healthy\"\x7d" } := rfl

/-- Claim C8: every request whose method/path pair is neither
(GET, /health) nor (POST, /authorize) gets a 404 response with the
plain-text body "Not found" (and no content-type header). -/
theorem claim8_unknown_routes_404 {EUid EntitiesV SchemaV PolicySetV ReqV : Type}
    (eng : Engine EUid EntitiesV SchemaV PolicySetV ReqV)
    (svc : CedarService SchemaV PolicySetV)
    (method : Method) (path : String) (bodyRead : Except String String)
    (h1 : ¬(method = Method.get ∧ path = "/health"))
    (h2 : ¬(method = Method.post ∧ path = "/authorize")) :
    handle_request eng svc method path bodyRead =
      { status := 404, content_type := none, body := "Not found" } := by
  simp only [handle_request]
  rw [if_neg h1, if_neg h2]

/-- Witness for claim C8 at the spec's two examples: PUT /authorize and
GET /unknown both produce the 404 response. -/
theorem claim8_witness :
    handle_request egEngine egService Method.put "/authorize" (Except.ok "") =
        { status := 404, content_type := none, body := "Not found" } ∧
      handle_request egEngine egService Method.get "/unknown" (Except.ok "") =
        { status := 404, content_type := none, body := "Not found" } :=
  ⟨claim8_unknown_routes_404 egEngine egService Method.put "/authorize" (Except.ok "")
      (by decide) (by decide),
    claim8_unknown_routes_404 egEngine egService Method.get "/unknown" (Except.ok "")
      (by decide) (by decide)⟩

/-- Claim C9: the authorization pipeline is deterministic.  With the
engine a fixed pure function record, two runs of the full POST /authorize
pipeline on componentwise-identical service states and identical
well-formed bodies produce identical responses, and the
build-invoke-assemble stage produces an identical decision and
diagnostics (the whole AuthzResponse). -/
theorem claim9_pipeline_deterministic {EUid EntitiesV SchemaV PolicySetV ReqV : Type}
    (eng : Engine EUid EntitiesV SchemaV PolicySetV ReqV)
    (svc svc' : CedarService SchemaV PolicySetV)
    (body body' : String) (req : AuthzRequest)
    (hps : svc.policy_set = svc'.policy_set) (hsc : svc.schema = svc'.schema)
    (hb : body = body') (_hdec : from_slice_AuthzRequest body = .ok req) :
    handle_request eng svc Method.post "/authorize" (.ok body)
        = handle_request eng svc' Method.post "/authorize" (.ok body') ∧
      CedarService.authorize eng svc req = CedarService.authorize eng svc' req := by
  cases svc
  cases svc'
  dsimp only at hps hsc
  subst hps
  subst hsc
  subst hb
  exact ⟨rfl, rfl⟩

/-- Witness for claim C9 at a concrete engine, service and body. -/
theorem claim9_witness :
    handle_request okEngine egService Method.post "/authorize" (.ok egBody)
        = handle_request okEngine egService Method.post "/authorize" (.ok egBody) ∧
      CedarService.authorize okEngine egService
          { principal := "p", action := "a", resource := "r", entities := Json.null }
        = CedarService.authorize okEngine egService
          { principal := "p", action := "a", resource := "r", entities := Json.null } :=
  claim9_pipeline_deterministic okEngine egService egService egBody egBody
    { principal := "p", action := "a", resource := "r", entities := Json.null }
    rfl rfl rfl (by rfl)

/-- Claim C6: the response assembler maps Allow/Deny to exactly the
strings "Allow"/"Deny" and copies the diagnostics lists unchanged
(preserving engine order); the response assembled from
(Allow, reason=["p1"], errors=[]) serializes to exactly the spec's JSON
text, and reading that text back (parse, then the spec's wire-shape
decoder) recovers the same logical structure. -/
theorem claim6_assembler :
    (∀ reason errors : List String, assemble Decision.allow reason errors
        = { decision := "Allow", diagnostics := { reason := reason, errors := errors } }) ∧
    (∀ reason errors : List String, assemble Decision.deny reason errors
        = { decision := "Deny", diagnostics := { reason := reason, errors := errors } }) ∧
    to_string_AuthzResponse (assemble Decision.allow ["p1"] [])
        = "\x7b\"decision\":\"Allow\",\"diagnostics\":\x7b\"reason\":[\"p1\"],\"errors\":[]\x7d\x7d" ∧
    Option.bind (parseJsonChars (to_string_AuthzResponse (assemble Decision.allow ["p1"] [])).data)
        decode_AuthzResponse = some (assemble Decision.allow ["p1"] []) :=
  ⟨fun _ _ => rfl, fun _ _ => rfl, rfl, rfl⟩

/-- Claim C3: startup succeeds iff the policy source is readable and
parses and, when the schema source is readable, it parses; moreover an
unreadable schema yields schema-less mode (schema = none) rather than an
error, and a readable, parsable schema is stored (schema = some). -/
theorem claim3_startup_iff {SchemaV PolicySetV : Type}
    (policyRead schemaRead : Except String String)
    (parsePolicySet : String → Except String PolicySetV)
    (schemaFromJsonStr : String → Except String SchemaV) :
    ((∃ svc, CedarService.new policyRead schemaRead parsePolicySet schemaFromJsonStr
        = .ok svc) ↔
      ((∃ s, policyRead = .ok s ∧ ∃ ps, parsePolicySet s = .ok ps) ∧
        (∀ t, schemaRead = .ok t → ∃ sc, schemaFromJsonStr t = .ok sc))) ∧
    (∀ e, schemaRead = .error e →
      ∀ svc, CedarService.new policyRead schemaRead parsePolicySet schemaFromJsonStr
        = .ok svc → svc.schema = none) ∧
    (∀ t sc, schemaRead = .ok t → schemaFromJsonStr t = .ok sc →
      ∀ svc, CedarService.new policyRead schemaRead parsePolicySet schemaFromJsonStr
        = .ok svc → svc.schema = some sc) := by
  cases policyRead with
  | error e =>
    refine ⟨?_, ?_, ?_⟩
    · simp [CedarService.new, map_err]
    · intro e' _ svc hsvc
      simp [CedarService.new, map_err] at hsvc
    · intro t sc _ _ svc hsvc
      simp [CedarService.new, map_err] at hsvc
  | ok s =>
    cases hpp : parsePolicySet s with
    | error e2 =>
      refine ⟨?_, ?_, ?_⟩
      · simp [CedarService.new, map_err, hpp]
      · intro e' _ svc hsvc
        simp [CedarService.new, map_err, hpp] at hsvc
      · intro t sc _ _ svc hsvc
        simp [CedarService.new, map_err, hpp] at hsvc
    | ok ps =>
      cases schemaRead with
      | error e3 =>
        refine ⟨?_, ?_, ?_⟩
        · constructor
          · intro _
            exact ⟨⟨s, rfl, ps, hpp⟩, fun t ht => by cases ht⟩
          · intro _
            exact ⟨{ policy_set := ps, schema := none }, by simp [CedarService.new, map_err, hpp]⟩
        · intro e' _ svc hsvc
          simp [CedarService.new, map_err, hpp] at hsvc
          rw [← hsvc]
        · intro t sc ht _ svc hsvc
          cases ht
      | ok t =>
        cases hsp : schemaFromJsonStr t with
        | error e4 =>
          refine ⟨?_, ?_, ?_⟩
          · constructor
            · intro ⟨svc, hsvc⟩
              simp [CedarService.new, map_err, hpp, hsp] at hsvc
            · intro ⟨_, hall⟩
              obtain ⟨sc, hsc⟩ := hall t rfl
              rw [hsp] at hsc
              cases hsc
          · intro e' he' svc hsvc
            cases he'
          · intro t' sc ht' hsc' svc hsvc
            have : t' = t := by cases ht'; rfl
            subst this
            rw [hsp] at hsc'
            cases hsc'
        | ok sc =>
          refine ⟨?_, ?_, ?_⟩
          · constructor
            · intro _
              exact ⟨⟨s, rfl, ps, hpp⟩, fun t' ht' => by
                cases ht'
                exact ⟨sc, hsp⟩⟩
            · intro _
              exact ⟨{ policy_set := ps, schema := some sc },
                by simp [CedarService.new, map_err, hpp, hsp]⟩
          · intro e' he' svc hsvc
            cases he'
          · intro t' sc' ht' hsc' svc hsvc
            have ht2 : t' = t := by cases ht'; rfl
            subst ht2
            rw [hsp] at hsc'
            have hsc2 : sc' = sc := by cases hsc'; rfl
            subst hsc2
            simp [CedarService.new, map_err, hpp, hsp] at hsvc
            rw [← hsvc]

/-- Witness for claim C3: with a readable, parsable policy and an
unreadable schema, startup succeeds and the resulting service is in
schema-less mode. -/
theorem claim3_witness :
    (∃ svc, @CedarService.new Unit Unit (Except.ok "policy") (Except.error "no schema file")
        (fun _ => Except.ok ()) (fun _ => Except.ok ()) = Except.ok svc) ∧
    (∀ svc, @CedarService.new Unit Unit (Except.ok "policy") (Except.error "no schema file")
        (fun _ => Except.ok ()) (fun _ => Except.ok ()) = Except.ok svc → svc.schema = none) := by
  have h := @claim3_startup_iff Unit Unit (Except.ok "policy") (Except.error "no schema file")
    (fun _ => Except.ok ()) (fun _ => Except.ok ())
  exact ⟨h.1.mpr ⟨⟨"policy", rfl, (), rfl⟩, fun t ht => by cases ht⟩,
    fun svc hsvc => h.2.1 "no schema file" rfl svc hsvc⟩

theorem authorize_entities_error {EUid EntitiesV SchemaV PolicySetV ReqV : Type}
    (eng : Engine EUid EntitiesV SchemaV PolicySetV ReqV)
    (svc : CedarService SchemaV PolicySetV) (req : AuthzRequest) (e : String)
    (he : eng.entities_from_json_value req.entities svc.schema = .error e) :
    CedarService.authorize eng svc req = .error ("Failed to parse entities: " ++ e) := by
  cases hsch : svc.schema with
  | none =>
    rw [hsch] at he
    simp [CedarService.authorize, hsch, he, map_err]
  | some sc =>
    rw [hsch] at he
    simp [CedarService.authorize, hsch, he, map_err]

theorem authorize_principal_error {EUid EntitiesV SchemaV PolicySetV ReqV : Type}
    (eng : Engine EUid EntitiesV SchemaV PolicySetV ReqV)
    (svc : CedarService SchemaV PolicySetV) (req : AuthzRequest) (ents : EntitiesV) (e : String)
    (hent : eng.entities_from_json_value req.entities svc.schema = .ok ents)
    (hp : eng.parse_euid req.principal = .error e) :
    CedarService.authorize eng svc req = .error ("Failed to parse principal: " ++ e) := by
  cases hsch : svc.schema with
  | none =>
    rw [hsch] at hent
    simp [CedarService.authorize, hsch, hent, hp, map_err]
  | some sc =>
    rw [hsch] at hent
    simp [CedarService.authorize, hsch, hent, hp, map_err]

theorem authorize_action_error {EUid EntitiesV SchemaV PolicySetV ReqV : Type}
    (eng : Engine EUid EntitiesV SchemaV PolicySetV ReqV)
    (svc : CedarService SchemaV PolicySetV) (req : AuthzRequest) (ents : EntitiesV)
    (pr : EUid) (e : String)
    (hent : eng.entities_from_json_value req.entities svc.schema = .ok ents)
    (hpr : eng.parse_euid req.principal = .ok pr)
    (ha : eng.parse_euid req.action = .error e) :
    CedarService.authorize eng svc req = .error ("Failed to parse action: " ++ e) := by
  cases hsch : svc.schema with
  | none =>
    rw [hsch] at hent
    simp [CedarService.authorize, hsch, hent, hpr, ha, map_err]
  | some sc =>
    rw [hsch] at hent
    simp [CedarService.authorize, hsch, hent, hpr, ha, map_err]

theorem authorize_resource_error {EUid EntitiesV SchemaV PolicySetV ReqV : Type}
    (eng : Engine EUid EntitiesV SchemaV PolicySetV ReqV)
    (svc : CedarService SchemaV PolicySetV) (req : AuthzRequest) (ents : EntitiesV)
    (pr ac : EUid) (e : String)
    (hent : eng.entities_from_json_value req.entities svc.schema = .ok ents)
    (hpr : eng.parse_euid req.principal = .ok pr)
    (hac : eng.parse_euid req.action = .ok ac)
    (hr : eng.parse_euid req.resource = .error e) :
    CedarService.authorize eng svc req = .error ("Failed to parse resource: " ++ e) := by
  cases hsch : svc.schema with
  | none =>
    rw [hsch] at hent
    simp [CedarService.authorize, hsch, hent, hpr, hac, hr, map_err]
  | some sc =>
    rw [hsch] at hent
    simp [CedarService.authorize, hsch, hent, hpr, hac, hr, map_err]

/-- Claim C5: in the build stage of one /authorize call the checks run in
the order entities, principal, action, resource; the first failing stage
alone determines the reported error (the hypotheses say nothing about the
later stages, so later outcomes cannot change the reported message, and
exactly one message is ever reported). -/
theorem claim5_build_order {EUid EntitiesV SchemaV PolicySetV ReqV : Type}
    (eng : Engine EUid EntitiesV SchemaV PolicySetV ReqV)
    (svc : CedarService SchemaV PolicySetV) (req : AuthzRequest) :
    (∀ e, eng.entities_from_json_value req.entities svc.schema = .error e →
      CedarService.authorize eng svc req = .error ("Failed to parse entities: " ++ e)) ∧
    (∀ ents e, eng.entities_from_json_value req.entities svc.schema = .ok ents →
      eng.parse_euid req.principal = .error e →
      CedarService.authorize eng svc req = .error ("Failed to parse principal: " ++ e)) ∧
    (∀ ents pr e, eng.entities_from_json_value req.entities svc.schema = .ok ents →
      eng.parse_euid req.principal = .ok pr →
      eng.parse_euid req.action = .error e →
      CedarService.authorize eng svc req = .error ("Failed to parse action: " ++ e)) ∧
    (∀ ents pr ac e, eng.entities_from_json_value req.entities svc.schema = .ok ents →
      eng.parse_euid req.principal = .ok pr →
      eng.parse_euid req.action = .ok ac →
      eng.parse_euid req.resource = .error e →
      CedarService.authorize eng svc req = .error ("Failed to parse resource: " ++ e)) :=
  ⟨fun e he => authorize_entities_error eng svc req e he,
    fun ents e hent hp => authorize_principal_error eng svc req ents e hent hp,
    fun ents pr e hent hpr ha => authorize_action_error eng svc req ents pr e hent hpr ha,
    fun ents pr ac e hent hpr hac hr =>
      authorize_resource_error eng svc req ents pr ac e hent hpr hac hr⟩

/-- Witness for claim C5: with an engine whose identifier parser always
fails, both the principal and the action parse would fail, yet the single
reported error is the principal one. -/
theorem claim5_witness :
    CedarService.authorize egEngine egService
        { principal := "p", action := "a", resource := "r", entities := Json.null }
      = .error ("Failed to parse principal: " ++ "expected an identifier like User::\"alice\"") :=
  (claim5_build_order egEngine egService
      { principal := "p", action := "a", resource := "r", entities := Json.null }).2.1
    () "expected an identifier like User::\"alice\"" rfl rfl

/-- Counterexample to claim C1: a well-formed request whose build stage
fails (the principal does not parse) is answered with status 500, not the
claimed 400 (src/main.rs:171-176 maps every authorize error to
INTERNAL_SERVER_ERROR). -/
theorem claim1_counterexample :
    (handle_request egEngine egService Method.post "/authorize" (.ok egBody)).status = 500 ∧
      ¬(handle_request egEngine egService Method.post "/authorize" (.ok egBody)).status = 400 :=
  ⟨rfl, by decide⟩

/-- Claim C1 amended: a request that decodes but whose build stage fails
is answered with status 500 (not 400) and the JSON error envelope
\x7b"error":m\x7d carrying the stage's message; a principal parse failure
reports the message "Failed to parse principal: ...", which is never
equal to an action or resource parse failure message. -/
theorem claim1_amended {EUid EntitiesV SchemaV PolicySetV ReqV : Type}
    (eng : Engine EUid EntitiesV SchemaV PolicySetV ReqV)
    (svc : CedarService SchemaV PolicySetV) (body : String) (req : AuthzRequest) (m : String)
    (hdec : from_slice_AuthzRequest body = .ok req)
    (hfail : CedarService.authorize eng svc req = .error m) :
    handle_request eng svc Method.post "/authorize" (.ok body)
        = { status := 500, content_type := some "application/json", body := mkErrorBody m } ∧
      (∀ ents e, eng.entities_from_json_value req.entities svc.schema = .ok ents →
        eng.parse_euid req.principal = .error e →
        m = "Failed to parse principal: " ++ e ∧
          (∀ e', ¬m = "Failed to parse action: " ++ e') ∧
          (∀ e', ¬m = "Failed to parse resource: " ++ e')) := by
  constructor
  · show authorize_route eng svc (.ok body) = _
    simp only [authorize_route, hdec, hfail]
  · intro ents e hent hp
    have h2 := authorize_principal_error eng svc req ents e hent hp
    rw [hfail] at h2
    injection h2 with hm
    refine ⟨hm, ?_, ?_⟩
    · intro e' hq
      rw [hm] at hq
      exact string_append_ne "Failed to parse principal: " "Failed to parse action: "
        e e' 16 (by decide) (by decide) (by decide) hq
    · intro e' hq
      rw [hm] at hq
      exact string_append_ne "Failed to parse principal: " "Failed to parse resource: "
        e e' 16 (by decide) (by decide) (by decide) hq

/-- Witness for the amended claim C1 at a concrete engine and body. -/
theorem claim1_amended_witness :
    handle_request egEngine egService Method.post "/authorize" (.ok egBody)
      = { status := 500, content_type := some "application/json",
          body := mkErrorBody
            "Failed to parse principal: expected an identifier like User::\"alice\"" } :=
  (claim1_amended egEngine egService egBody
    { principal := "p", action := "a", resource := "r", entities := Json.null }
    "Failed to parse principal: expected an identifier like User::\"alice\""
    (by rfl) (by rfl)).1

/-- Claim C2: a POST /authorize body that is not valid JSON, or is valid
JSON that misses one of the four required fields, is answered with status
400 and the JSON error envelope whose error message is non-empty; the
decode stage is a total function over arbitrary bodies, so decoding can
never crash the handler. -/
theorem claim2_malformed_or_missing_400 {EUid EntitiesV SchemaV PolicySetV ReqV : Type}
    (eng : Engine EUid EntitiesV SchemaV PolicySetV ReqV)
    (svc : CedarService SchemaV PolicySetV) (body : String)
    (h : parseJsonChars body.data = none ∨
      ∃ j, parseJsonChars body.data = some j ∧ MissingReq j) :
    ∃ m, handle_request eng svc Method.post "/authorize" (.ok body)
        = { status := 400, content_type := some "application/json",
            body := mkErrorBody ("Invalid request: " ++ m) } ∧
      ¬("Invalid request: " ++ m) = "" := by
  have hdecfail : ∃ e, from_slice_AuthzRequest body = .error e := by
    rcases h with hnone | ⟨j, hsome, hmiss⟩
    · exact ⟨"expected value", by simp [from_slice_AuthzRequest, hnone]⟩
    · cases hj : fromJsonAuthzRequest j with
      | error e => exact ⟨e, by simp [from_slice_AuthzRequest, hsome, hj]⟩
      | ok req =>
        exfalso
        cases j with
        | obj fields =>
          have hpres := fromJsonFields_ok_present fields none none none none req hj
          rcases hmiss fields rfl with hm | hm | hm | hm
          · rcases hpres.1 with hx | hx
            · exact hx rfl
            · exact hx hm
          · rcases hpres.2.1 with hx | hx
            · exact hx rfl
            · exact hx hm
          · rcases hpres.2.2.1 with hx | hx
            · exact hx rfl
            · exact hx hm
          · rcases hpres.2.2.2 with hx | hx
            · exact hx rfl
            · exact hx hm
        | null => simp [fromJsonAuthzRequest] at hj
        | bool b => simp [fromJsonAuthzRequest] at hj
        | num s => simp [fromJsonAuthzRequest] at hj
        | str s => simp [fromJsonAuthzRequest] at hj
        | arr items => simp [fromJsonAuthzRequest] at hj
  obtain ⟨e, he⟩ := hdecfail
  refine ⟨e, ?_, string_append_ne_empty "Invalid request: " e (by decide)⟩
  show authorize_route eng svc (.ok body) = _
  simp only [authorize_route, he]

/-- Witness for claim C2: a well-formed JSON object body that misses the
`entities` field (and the others beyond principal) is answered 400 with a
non-empty error message. -/
theorem claim2_witness :
    ∃ m, handle_request okEngine egService Method.post "/authorize"
          (.ok "\x7b\"principal\":\"p\"\x7d")
        = { status := 400, content_type := some "application/json",
            body := mkErrorBody ("Invalid request: " ++ m) } ∧
      ¬("Invalid request: " ++ m) = "" :=
  claim2_malformed_or_missing_400 okEngine egService "\x7b\"principal\":\"p\"\x7d"
    (Or.inr ⟨Json.obj [("principal", Json.str "p")], by rfl, by
      intro fields hf
      cases hf
      exact Or.inr (Or.inl rfl)⟩)

/-- Counterexample to claim C4: the underlying error message of a build
failure can contain a double quote (cedar identifier errors quote entity
identifiers), and the handler splices it into the error template without
escaping (src/main.rs:174), so the resulting 500 response body is not a
JSON document at all. -/
theorem claim4_counterexample :
    (handle_request egEngine egService Method.post "/authorize" (.ok egBody)).status = 500 ∧
      parseJsonChars
        (handle_request egEngine egService Method.post "/authorize" (.ok egBody)).body.data
        = none :=
  ⟨rfl, rfl⟩

/-- Claim C4 amended: every error response other than 404 carries the
mapped status (400 for body-read and decode failures, 500 for authorize
failures) and the body \x7b"error":m\x7d for the underlying message m;
that body is a JSON document with an `error` string field whenever m
contains no double quote, backslash or control character (with no
escaping in the template, such characters break the JSON shape). -/
theorem claim4_amended {EUid EntitiesV SchemaV PolicySetV ReqV : Type}
    (eng : Engine EUid EntitiesV SchemaV PolicySetV ReqV)
    (svc : CedarService SchemaV PolicySetV)
    (method : Method) (path : String) (bodyRead : Except String String)
    (herr : (handle_request eng svc method path bodyRead).status = 400 ∨
      (handle_request eng svc method path bodyRead).status = 500) :
    ∃ m, (handle_request eng svc method path bodyRead).body = mkErrorBody m ∧
      (benignStr m →
        parseJsonChars (handle_request eng svc method path bodyRead).body.data
          = some (Json.obj [("error", Json.str m)])) := by
  by_cases h1 : method = Method.get ∧ path = "/health"
  · exfalso
    have hh : handle_request eng svc method path bodyRead
        = { status := 200, content_type := some "application/json",
            body := to_string_HealthResponse { status := "healthy" } } := by
      simp only [handle_request, if_pos h1]
    rw [hh] at herr
    rcases herr with hx | hx <;> simp at hx
  · by_cases h2 : method = Method.post ∧ path = "/authorize"
    · have hroute : handle_request eng svc method path bodyRead
          = authorize_route eng svc bodyRead := by
        simp only [handle_request, if_neg h1, if_pos h2]
      rw [hroute] at herr ⊢
      cases bodyRead with
      | error e =>
        refine ⟨"Failed to read body: " ++ e, rfl, fun hb => ?_⟩
        have hb2 : (authorize_route eng svc (Except.error e)).body
            = mkErrorBody ("Failed to read body: " ++ e) := rfl
        rw [hb2]
        exact parseJsonChars_mkErrorBody _ hb
      | ok body =>
        cases hfs : from_slice_AuthzRequest body with
        | error e =>
          refine ⟨"Invalid request: " ++ e, ?_, fun hb => ?_⟩
          · simp only [authorize_route, hfs]
          · have hb2 : (authorize_route eng svc (Except.ok body)).body
                = mkErrorBody ("Invalid request: " ++ e) := by
              simp only [authorize_route, hfs]
            rw [hb2]
            exact parseJsonChars_mkErrorBody _ hb
        | ok req =>
          cases hau : CedarService.authorize eng svc req with
          | error e =>
            refine ⟨e, ?_, fun hb => ?_⟩
            · simp only [authorize_route, hfs, hau]
            · have hb2 : (authorize_route eng svc (Except.ok body)).body
                  = mkErrorBody e := by
                simp only [authorize_route, hfs, hau]
              rw [hb2]
              exact parseJsonChars_mkErrorBody _ hb
          | ok resp =>
            exfalso
            have hst : (authorize_route eng svc (Except.ok body)).status = 200 := by
              simp only [authorize_route, hfs, hau]
            rcases herr with hx | hx <;> rw [hst] at hx <;> simp at hx
    · exfalso
      have hh : handle_request eng svc method path bodyRead
          = { status := 404, content_type := none, body := "Not found" } := by
        simp only [handle_request, if_neg h1, if_neg h2]
      rw [hh] at herr
      rcases herr with hx | hx <;> simp at hx

/-- Witness for the amended claim C4: a decode failure (body not valid
JSON) produces the envelope with a benign message, and its body parses
back as a JSON object with the error field. -/
theorem claim4_witness :
    ∃ m, (handle_request okEngine egService Method.post "/authorize" (.ok "not json")).body
        = mkErrorBody m ∧
      (benignStr m →
        parseJsonChars
          (handle_request okEngine egService Method.post "/authorize" (.ok "not json")).body.data
          = some (Json.obj [("error", Json.str m)])) :=
  claim4_amended okEngine egService Method.post "/authorize" (.ok "not json") (Or.inl rfl)

/-- Claim C10: request decoding is lenient beyond presence and JSON type
of the four declared fields: any JSON object (its keys distinct, as JSON
object member names are) whose principal, action and resource are JSON
strings and whose entities is any JSON value at all decodes successfully
to exactly those four values, with every undeclared field silently
ignored. -/
theorem claim10_decode_lenient (fields : List (String × Json)) (p a r : String) (ev : Json)
    (hnd : (fields.map Prod.fst).Nodup)
    (hp : jlookup fields "principal" = some (Json.str p))
    (ha : jlookup fields "action" = some (Json.str a))
    (hr : jlookup fields "resource" = some (Json.str r))
    (he : jlookup fields "entities" = some ev) :
    fromJsonAuthzRequest (Json.obj fields)
      = .ok { principal := p, action := a, resource := r, entities := ev } :=
  fromJsonFields_complete fields none none none none p a r ev hnd
    (Or.inr ⟨rfl, hp⟩) (Or.inr ⟨rfl, ha⟩) (Or.inr ⟨rfl, hr⟩) (Or.inr ⟨rfl, he⟩)

/-- Witness for claim C10: an object with an undeclared extra field and a
number as entities decodes successfully, ignoring the extra field. -/
theorem claim10_witness :
    fromJsonAuthzRequest (Json.obj [("principal", Json.str "p"), ("extra", Json.bool true),
        ("action", Json.str "a"), ("resource", Json.str "r"), ("entities", Json.num "5")])
      = .ok { principal := "p", action := "a", resource := "r", entities := Json.num "5" } :=
  claim10_decode_lenient
    [("principal", Json.str "p"), ("extra", Json.bool true), ("action", Json.str "a"),
      ("resource", Json.str "r"), ("entities", Json.num "5")]
    "p" "a" "r" (Json.num "5") (by decide) rfl rfl rfl rfl
